import Mathlib

/-!
Verification of the design-token pipeline core (normalization, transforms,
formats) against its natural-language specification.

The JavaScript sources are shallowly embedded below.  JS numbers are modelled
as rationals (`ℚ`): every numeric computation the settled claims exercise is
exact in double precision, so the rational model agrees with the JS runtime on
those inputs.  JS strings are Lean `String`s; `undefined`/missing fields are
`Option`; objects are structures.  Functions are total: where the JS source
can only throw outside the domains the claims quantify over, the theorems
carry the corresponding hypotheses.
-/

/-! ## JS number primitives -/

/-- The decimal digit character for `n < 10` (`'0'` has code point 48). -/
def digitChar (n : ℕ) : Char := Char.ofNat (48 + n)

/-- Decimal digits of `n`, most significant first, computed with structural
fuel (`fuel ≥ n` suffices, see `natDigitsAux_val`); the digit list a JS
`Number.prototype.toString` produces for a whole number. -/
def natDigitsAux : ℕ → ℕ → List Char
  | 0, n => [digitChar n]
  | fuel + 1, n =>
    if n < 10 then [digitChar n] else natDigitsAux fuel (n / 10) ++ [digitChar (n % 10)]

def natDigits (n : ℕ) : List Char := natDigitsAux n n

/-- Decimal rendering of a natural number. -/
def natRepr (n : ℕ) : String := ⟨natDigits n⟩

/-- Decimal rendering of an integer. -/
def intRepr (i : ℤ) : String :=
  if i < 0 then "-" ++ natRepr i.natAbs else natRepr i.toNat

/-- Value of a list of decimal digit characters (as `parseFloat` accumulates
them). -/
def digitsVal (l : List Char) : ℕ :=
  l.foldl (fun acc c => 10 * acc + (c.toNat - 48)) 0

/-- JS `Math.round`: round half toward positive infinity. -/
def jsRound (q : ℚ) : ℤ := ⌊q + 1 / 2⌋

/-- Left-pad a digit list with `'0'` to length `k`. -/
def padZeros (k : ℕ) (l : List Char) : List Char :=
  List.replicate (k - l.length) '0' ++ l

/-- JS `Number.prototype.toFixed(k)`: sign, then the magnitude rounded to `k`
decimal digits (ties to the larger value), rendered with exactly `k` digits
after the point. -/
def toFixed (k : ℕ) (q : ℚ) : String :=
  let sgn := if q < 0 then "-" else ""
  let n : ℕ := (⌊|q| * 10 ^ k + 1 / 2⌋).toNat
  let ip := n / 10 ^ k
  let fp := n % 10 ^ k
  if k = 0 then sgn ++ natRepr ip
  else sgn ++ natRepr ip ++ "." ++ String.mk (padZeros k (natDigits fp))

/-- Least `k` with `d ∣ 10 ^ k`, when one exists (i.e. `d = 2^a * 5^b`):
the number of decimal digits a terminating fraction with denominator `d`
needs.  Fuel-based search; `d` itself bounds the answer. -/
def decExpAux : ℕ → ℕ → ℕ → Option ℕ
  | 0, _, _ => none
  | fuel + 1, d, k => if 10 ^ k % d = 0 then some k else decExpAux fuel d (k + 1)

def decExp (d : ℕ) : Option ℕ := decExpAux (d + 1) d 0

/-- JS `String(number)` / template-literal rendering of a number, for the
values this pipeline produces: integers render without a point, terminating
fractions render with their shortest decimal expansion.  (A value with a
non-terminating decimal expansion cannot be an exact double; that branch
renders 17 digits and is exercised by no settled claim.) -/
def jsRepr (q : ℚ) : String :=
  let sgn := if q < 0 then "-" else ""
  let m := |q|
  let ip := (⌊m⌋).toNat
  if m.den = 1 then sgn ++ natRepr ip
  else
    let k := (decExp m.den).getD 17
    let fracVal := (⌊(m - ip) * 10 ^ k⌋).toNat
    sgn ++ natRepr ip ++ "." ++ String.mk (padZeros k (natDigits fracVal))

/-- JS `parseFloat`: skip leading whitespace, optional sign, decimal digits,
optional fraction; `none` is JS `NaN`.  (Exponent notation never occurs in
this pipeline's values and is not modelled.) -/
def parseFloatQ (s : String) : Option ℚ :=
  let l := s.data.dropWhile (fun c => c.isWhitespace)
  let sgn : ℚ := if l.head? = some '-' then -1 else 1
  let l2 := if l.head? = some '-' ∨ l.head? = some '+' then l.tail else l
  let ipart := l2.takeWhile Char.isDigit
  let rest := l2.dropWhile Char.isDigit
  let fpart := if rest.head? = some '.' then rest.tail.takeWhile Char.isDigit else []
  if ipart = [] ∧ fpart = [] then none
  else some (sgn * ((digitsVal ipart : ℚ) + (digitsVal fpart : ℚ) / 10 ^ fpart.length))

/-- JS `String.prototype.includes` on character lists. -/
def listIsInfix (pat : List Char) : List Char → Bool
  | [] => pat.isEmpty
  | c :: rest => pat.isPrefixOf (c :: rest) || listIsInfix pat rest

/-- JS `s.includes(pat)`. -/
def strIncludes (s pat : String) : Bool := listIsInfix pat.data s.data

/-- JS `s.startsWith(pat)`. -/
def strStartsWith (s pat : String) : Bool := pat.data.isPrefixOf s.data

/-- JS `s.endsWith(pat)`. -/
def strEndsWith (s pat : String) : Bool := pat.data.isSuffixOf s.data

/-- JS `toLowerCase` (character-wise; core `String.toLower` is
position-based and is avoided so that terms reduce). -/
def lowerStr (s : String) : String := ⟨s.data.map Char.toLower⟩

/-- JS `toUpperCase` (character-wise). -/
def upperStr (s : String) : String := ⟨s.data.map Char.toUpper⟩

/-- JS `trim`: whitespace stripped from both ends. -/
def trimWs (s : String) : String :=
  ⟨((s.data.dropWhile Char.isWhitespace).reverse.dropWhile Char.isWhitespace).reverse⟩

/-- JS `split('/')` accumulator: current segment is kept reversed. -/
def splitSlashAux : List Char → List Char → List (List Char)
  | [], cur => [cur.reverse]
  | c :: rest, cur =>
    if c = '/' then cur.reverse :: splitSlashAux rest [] else splitSlashAux rest (c :: cur)

/-- JS `name.split('/')`. -/
def splitSlash (s : String) : List String := (splitSlashAux s.data []).map (fun l => ⟨l⟩)

/-! ## String helpers used by the transforms and formats -/

/-- Remove one leading `'-'` (one half of the JS regex `/^-|-$/g`). -/
def dropOneLeadDash (l : List Char) : List Char :=
  match l with
  | '-' :: t => t
  | _ => l

/-- JS `.replace(/^-|-$/g, '')`: strip a single leading and a single
trailing dash. -/
def trimEdgeDashes (s : String) : String :=
  ⟨(dropOneLeadDash (dropOneLeadDash s.data).reverse).reverse⟩

def collapseDashesAux : List Char → Bool → List Char
  | [], _ => []
  | c :: rest, prevDash =>
    if c = '-' then
      if prevDash then collapseDashesAux rest true
      else '-' :: collapseDashesAux rest true
    else c :: collapseDashesAux rest false

/-- JS replace of every run of dashes by a single dash. -/
def collapseDashes (s : String) : String := ⟨collapseDashesAux s.data false⟩

/-- JS `.toLowerCase().replace(/[^a-z0-9-]/g, '-')`. -/
def sanitizeNameString (s : String) : String :=
  ⟨(lowerStr s).data.map (fun c =>
    if ('a' ≤ c ∧ c ≤ 'z') ∨ ('0' ≤ c ∧ c ≤ '9') ∨ c = '-' then c else '-')⟩

/-- Hex digit value of a character (`parseInt(_, 16)` accepts either case). -/
def hexDigitVal (c : Char) : Option ℕ :=
  if '0' ≤ c ∧ c ≤ '9' then some (c.toNat - 48)
  else if 'a' ≤ c ∧ c ≤ 'f' then some (c.toNat - 87)
  else if 'A' ≤ c ∧ c ≤ 'F' then some (c.toNat - 55)
  else none

/-- JS `parseInt(s, 16)` on the 2-character slices this code feeds it:
value of the maximal hex-digit prefix, `none` (JS `NaN`) when there is
none. -/
def parseIntHex (l : List Char) : Option ℕ :=
  let ds := l.takeWhile (fun c => (hexDigitVal c).isSome)
  if ds = [] then none
  else some (ds.foldl (fun acc c => 16 * acc + (hexDigitVal c).getD 0) 0)

/-- The numeric value of a hex digit known to parse (`getD` never hits its
default on such a digit). -/
def hexValD (c : Char) : ℕ := (hexDigitVal c).getD 0

/-- Rendering of a possibly-NaN integer channel (template `${r}`). -/
def optNatRepr (o : Option ℕ) : String :=
  match o with
  | some n => natRepr n
  | none => "NaN"

/-! ## Token model (Style Dictionary token as the custom transforms see it) -/

/-- A JS value in a token's `value` slot: the transforms inspect
`typeof token.value === 'string'`. -/
inductive JValue where
  | str : String → JValue
  | num : ℚ → JValue
  | null : JValue
  deriving DecidableEq

/-- The attribute bag `attribute/category` merges into
(`{...token.attributes, category, subcategory, state}`). -/
structure TokenAttributes where
  category : Option String := none
  subcategory : Option String := none
  state : Option String := none
  comment : Option String := none

/-- A Style Dictionary token as the custom transforms and formats read it.
A JS object simply lacks a property where a field is `none`. -/
structure Token where
  path : List String := []
  type : Option String := none
  value : JValue := JValue.null
  name : String := ""
  description : Option String := none
  comment : Option String := none
  alpha : Option ℚ := none
  attributes : TokenAttributes := {}

/-- Per-file transform options (`options?.baseFontSize`). -/
structure TransformOptions where
  baseFontSize : Option ℚ := none

/-! ## custom-transforms.js -/

/-- `getTypePrefix`: the semantic prefix map, `''` for unmapped types
(`prefixMap[type] || ''`). -/
def getTypePrefix (ty : Option String) : String :=
  match ty with
  | some t =>
    if t = "color" then "color"
    else if t = "dimension" then "size"
    else if t = "fontFamily" then "font"
    else if t = "fontSize" then "font-size"
    else if t = "fontWeight" then "font-weight"
    else if t = "lineHeight" then "line-height"
    else if t = "shadow" then "shadow"
    else if t = "number" then "number"
    else ""
  | none => ""

/-- The `parts` array of `name/semantic` after the conditional
`parts.unshift(typePrefix)` (`parts[0]` of an empty array is `undefined`,
which never equals the prefix string). -/
def nameSemanticParts (t : Token) : List String :=
  let pfx := getTypePrefix t.type
  if pfx = "" then t.path
  else if t.path.head? = some pfx then t.path
  else pfx :: t.path

/-- The `name/semantic` transform: prefixed parts, empty parts removed,
joined with `-`, lower-cased, special characters replaced, dashes collapsed,
edge dashes trimmed. -/
def nameSemantic (t : Token) : String :=
  trimEdgeDashes (collapseDashes (sanitizeNameString
    (String.intercalate "-" ((nameSemanticParts t).filter (fun part => part ≠ "")))))

/-- A `name`-type transform replaces the token's name. -/
def applyNameSemantic (t : Token) : Token := { t with name := nameSemantic t }

/-- `determineCategory`: fixed lookup on the first path segment
(`undefined` for an empty path). -/
def determineCategory (t : Token) : Option String :=
  t.path.head?.map (fun firstPath =>
    if firstPath = "colors" then "color"
    else if firstPath = "spacing" then "space"
    else if firstPath = "typography" then "typography"
    else if firstPath = "effects" ∨ firstPath = "shadows" then "effect"
    else if firstPath = "borderRadius" then "radius"
    else firstPath)

/-- `determineSubcategory`: second path segment, absent for short paths. -/
def determineSubcategory (t : Token) : Option String :=
  if t.path.length < 2 then none else t.path[1]?

def stateNames : List String :=
  ["hover", "active", "focus", "disabled", "selected", "pressed"]

/-- `determineState`: last path segment, lower-cased, against the closed
state set.  (On an empty path the JS source would throw; every theorem
about it carries a nonempty-path hypothesis.) -/
def determineState (t : Token) : Option String :=
  match t.path.getLast? with
  | none => none
  | some stateName =>
    if lowerStr stateName ∈ stateNames then some (lowerStr stateName) else none

/-- The `attribute/category` transform's result:
`{...token.attributes, category, subcategory, state}`. -/
def attributeCategoryBag (t : Token) : TokenAttributes :=
  { t.attributes with
    category := determineCategory t
    subcategory := determineSubcategory t
    state := determineState t }

/-- An `attribute`-type transform replaces the token's attribute bag with
its merged result. -/
def applyAttrCategory (t : Token) : Token :=
  { t with attributes := attributeCategoryBag t }

/-- Filter of `color/css-rgba`: `token.type === 'color' && token.alpha !==
undefined`. -/
def cssRgbaFilter (t : Token) : Bool :=
  if t.type = some "color" ∧ t.alpha ≠ none then true else false

/-- Transform of `color/css-rgba`: decode the stored hex back to decimal
channels and render `rgba(r, g, b, a)` (`token.alpha || 1`: a `0` alpha is
falsy and becomes 1). -/
def cssRgbaTransform (t : Token) : String :=
  let hex := match t.value with | JValue.str s => s | _ => ""
  let alpha : ℚ := match t.alpha with | some a => if a = 0 then 1 else a | none => 1
  let r := parseIntHex ((hex.data.drop 1).take 2)
  let g := parseIntHex ((hex.data.drop 3).take 2)
  let b := parseIntHex ((hex.data.drop 5).take 2)
  "rgba(" ++ optNatRepr r ++ ", " ++ optNatRepr g ++ ", " ++ optNatRepr b ++ ", "
    ++ jsRepr alpha ++ ")"

/-- Filter of `size/px-to-rem`: dimension or fontSize type, a string value,
and `token.value.includes('px')`. -/
def pxToRemFilter (t : Token) : Bool :=
  if t.type = some "dimension" ∨ t.type = some "fontSize" then
    match t.value with
    | JValue.str s => strIncludes s "px"
    | _ => false
  else false

/-- Transform of `size/px-to-rem` on the value string:
`(parseFloat(value) / baseFontSize).toFixed(3) + 'rem'` (a failed parse is
`NaN` and renders as `"NaN"`). -/
def pxToRemValue (base : ℚ) (s : String) : String :=
  (match parseFloatQ s with
   | some v => toFixed 3 (v / base)
   | none => "NaN") ++ "rem"

/-- `options?.baseFontSize || 16` (a 0 option is falsy and falls back). -/
def resolvedBaseFontSize (opts : TransformOptions) : ℚ :=
  match opts.baseFontSize with
  | some b => if b = 0 then 16 else b
  | none => 16

/-- One filtered application of `size/px-to-rem`: tokens failing the filter
pass through unchanged. -/
def applyPxToRem (opts : TransformOptions) (t : Token) : Token :=
  if pxToRemFilter t then
    { t with value := JValue.str (pxToRemValue (resolvedBaseFontSize opts)
        (match t.value with | JValue.str s => s | _ => "")) }
  else t

/-- Filter of `value/reference`: a string value that starts with `{` and
ends with `}`. -/
def referenceFilter (t : Token) : Bool :=
  match t.value with
  | JValue.str s => strStartsWith s ("\x7b") && strEndsWith s ("\x7d")
  | _ => false

/-- Transform of `value/reference` on the value string:
`var(--` + `value.slice(1, -1).replace(/\./g, '-')` + `)`. -/
def referenceValue (s : String) : String :=
  "var(--" ++ ⟨((s.data.drop 1).dropLast).map (fun c => if c = '.' then '-' else c)⟩ ++ ")"

/-- One filtered application of `value/reference`. -/
def applyReference (t : Token) : Token :=
  if referenceFilter t then
    { t with value := JValue.str (referenceValue
        (match t.value with | JValue.str s => s | _ => "")) }
  else t

/-! ## extract/normalize.js -/

/-- JS `a || b` on an optional string against a default (empty strings are
falsy). -/
def jsStrOr (o : Option String) (d : String) : String :=
  match o with
  | some s => if s = "" then d else s
  | none => d

/-- Truthiness of an optional string (`undefined` and `''` are falsy). -/
def truthyStr (o : Option String) : Option String :=
  match o with
  | some s => if s = "" then none else some s
  | none => none

/-- Truthiness of an optional number (`undefined` and `0` are falsy). -/
def truthyNum (o : Option ℚ) : Option ℚ :=
  match o with
  | some q => if q = 0 then none else some q
  | none => none

/-- Hex digit character, lowercase as JS `toString(16)` renders it. -/
def hexDigitChar (n : ℕ) : Char :=
  if n < 10 then Char.ofNat (48 + n) else Char.ofNat (87 + n)

/-- Base-16 digits with structural fuel, most significant first. -/
def natHexDigitsAux : ℕ → ℕ → List Char
  | 0, n => [hexDigitChar n]
  | fuel + 1, n =>
    if n < 16 then [hexDigitChar n] else natHexDigitsAux fuel (n / 16) ++ [hexDigitChar (n % 16)]

def natHexDigits (n : ℕ) : List Char := natHexDigitsAux n n

/-- JS `Number.prototype.toString(16)` of an integer. -/
def intHexRepr (i : ℤ) : String :=
  if i < 0 then "-" ++ ⟨natHexDigits i.natAbs⟩ else ⟨natHexDigits i.toNat⟩

/-- JS `.padStart(2, '0')`. -/
def padStart2 (s : String) : String := ⟨List.replicate (2 - s.length) '0' ++ s.data⟩

/-- `toHex` inside `rgbToHex`: round, render base 16, pad to two digits,
uppercase. -/
def toHexByte (v : ℚ) : String := upperStr (padStart2 (intHexRepr (jsRound v)))

/-- `rgbToHex`: `#RRGGBB`, uppercase. -/
def rgbToHex (r g b : ℚ) : String := "#" ++ toHexByte r ++ toHexByte g ++ toHexByte b

/-- Character replacement inside `parseFigmaName`: anything outside
[a-zA-Z0-9-_] becomes `-`. -/
def segmentChar (c : Char) : Char :=
  if ('a' ≤ c ∧ c ≤ 'z') ∨ ('A' ≤ c ∧ c ≤ 'Z') ∨ ('0' ≤ c ∧ c ≤ '9') ∨ c = '-' ∨ c = '_'
  then c else '-'

/-- One segment of `parseFigmaName`: trim, replace special characters,
strip all leading/trailing dashes. -/
def parseSegment (part : String) : String :=
  ⟨((((trimWs part).data.map segmentChar).dropWhile (fun c => c = '-')).reverse.dropWhile
      (fun c => c = '-')).reverse⟩

/-- `parseFigmaName`: split the style name on `/`, clean each segment, drop
empty segments (`.filter(Boolean)`). -/
def parseFigmaName (name : String) : List String :=
  ((splitSlash name).map parseSegment).filter (fun s => s ≠ "")

/-- JS object assignment into an insertion-ordered string-keyed map:
assigning an existing key overwrites in place (last write wins), a new key
appends.  `setNestedValue`'s nested tree is modelled as this map keyed by
the full path. -/
def setKey {α β : Type} [DecidableEq α] : List (α × β) → α → β → List (α × β)
  | [], k, v => [(k, v)]
  | (k', v') :: rest, k, v =>
    if k' = k then (k, v) :: rest else (k', v') :: setKey rest k v

/-- Figma solid-fill color record: channels in [0,1], optional alpha. -/
structure FigmaColor where
  r : ℚ := 0
  g : ℚ := 0
  b : ℚ := 0
  a : Option ℚ := none

/-- A color style record as `normalizeColors` receives it. -/
structure ColorStyle where
  key : Option String := none
  name : String := ""
  description : Option String := none
  color : Option FigmaColor := none
  value : Option String := none

/-- The normalized token object the adapter constructs.  The `alpha` field
exists in the model only so its absence is expressible: none of the object
literals in normalize.js ever sets it. -/
structure NormToken where
  value : Option String := none
  type : String := ""
  description : String := ""
  figmaKey : Option String := none
  figmaName : String := ""
  alpha : Option ℚ := none

/-- `hexValue` inside `normalizeColors`: convert `color.color` when present,
else fall back to a truthy `color.value`, else leave `undefined`. -/
def colorHexValue (c : ColorStyle) : Option String :=
  match c.color with
  | some col => some (rgbToHex (col.r * 255) (col.g * 255) (col.b * 255))
  | none => truthyStr c.value

/-- The object literal `normalizeColors` stores for one color style.  Note:
it records no alpha channel, whatever `color.color.a` is. -/
def colorStyleToToken (c : ColorStyle) : NormToken :=
  { value := colorHexValue c
    type := "color"
    description := jsStrOr c.description ("Color: " ++ c.name)
    figmaKey := c.key
    figmaName := c.name }

/-- `normalizeColors`: one `setNestedValue` per record, in order. -/
def normalizeColors (colors : List ColorStyle) : List (List String × NormToken) :=
  colors.foldl (fun acc c => setKey acc (parseFigmaName c.name) (colorStyleToToken c)) []

/-- A text style record as `normalizeTypography` receives it; the
extraction layer (figma-api.js) copies Figma's `lineHeightPx` into this
record's `lineHeight` field. -/
structure TextStyle where
  key : Option String := none
  name : String := ""
  description : Option String := none
  fontFamily : Option String := none
  fontSize : Option ℚ := none
  fontWeight : Option ℚ := none
  lineHeight : Option ℚ := none

/-- `tokenName` inside `normalizeTypography`:
`namePath.slice(1).join('-') || namePath[0]`. -/
def tsTokenName (style : TextStyle) : String :=
  let namePath := parseFigmaName style.name
  let joined := String.intercalate "-" (namePath.drop 1)
  if joined = "" then
    match namePath.head? with
    | some h => h
    | none => "undefined"
  else joined

def fontFamilyToken (style : TextStyle) (ff : String) : NormToken :=
  { value := some ff
    type := "fontFamily"
    description := jsStrOr style.description ("Font family: " ++ ff)
    figmaKey := style.key
    figmaName := style.name }

def fontSizeToken (style : TextStyle) (fs : ℚ) : NormToken :=
  { value := some (jsRepr fs ++ "px")
    type := "dimension"
    description := jsStrOr style.description ("Font size: " ++ jsRepr fs ++ "px")
    figmaKey := style.key
    figmaName := style.name }

def fontWeightToken (style : TextStyle) (fw : ℚ) : NormToken :=
  { value := some (jsRepr fw)
    type := "fontWeight"
    description := jsStrOr style.description ("Font weight: " ++ jsRepr fw)
    figmaKey := style.key
    figmaName := style.name }

/-- `lineHeightValue`: the pixel ratio at 2 decimal places when a truthy
`fontSize` is present, else the raw value; `String(...)` of it either way. -/
def lineHeightValue (style : TextStyle) (lh : ℚ) : String :=
  match truthyNum style.fontSize with
  | some fs => toFixed 2 (lh / fs)
  | none => jsRepr lh

def lineHeightToken (style : TextStyle) (lh : ℚ) : NormToken :=
  { value := some (lineHeightValue style lh)
    type := "number"
    description := jsStrOr style.description ("Line height: " ++ lineHeightValue style lh)
    figmaKey := style.key
    figmaName := style.name }

/-- The four typography sub-maps of the normalized structure. -/
structure Typography where
  fontFamily : List (String × NormToken) := []
  fontSize : List (String × NormToken) := []
  fontWeight : List (String × NormToken) := []
  lineHeight : List (String × NormToken) := []

/-- One loop iteration of `normalizeTypography`: each truthy property
contributes its token under the shared `tokenName`. -/
def normTypStep (acc : Typography) (style : TextStyle) : Typography :=
  let nm := tsTokenName style
  let acc1 :=
    match truthyStr style.fontFamily with
    | some ff => { acc with fontFamily := setKey acc.fontFamily nm (fontFamilyToken style ff) }
    | none => acc
  let acc2 :=
    match truthyNum style.fontSize with
    | some fs => { acc1 with fontSize := setKey acc1.fontSize nm (fontSizeToken style fs) }
    | none => acc1
  let acc3 :=
    match truthyNum style.fontWeight with
    | some fw => { acc2 with fontWeight := setKey acc2.fontWeight nm (fontWeightToken style fw) }
    | none => acc2
  match truthyNum style.lineHeight with
  | some lh => { acc3 with lineHeight := setKey acc3.lineHeight nm (lineHeightToken style lh) }
  | none => acc3

def normalizeTypography (textStyles : List TextStyle) : Typography :=
  textStyles.foldl normTypStep {}

/-- A Figma effect layer's offset (`offset?.x`, `offset?.y`). -/
structure EffOffset where
  x : Option ℚ := none
  y : Option ℚ := none

/-- A Figma effect layer's color (`color?.r` … `color?.a`). -/
structure EffColor where
  r : Option ℚ := none
  g : Option ℚ := none
  b : Option ℚ := none
  a : Option ℚ := none

/-- One Figma effect layer. -/
structure EffectLayer where
  type : String := ""
  offset : Option EffOffset := none
  radius : Option ℚ := none
  spread : Option ℚ := none
  color : Option EffColor := none

/-- JS `v || 0` on an optional number (both `undefined` and `0` give 0). -/
def jsOrZero (o : Option ℚ) : ℚ :=
  match o with
  | some v => v
  | none => 0

/-- `color?.a !== undefined ? color.a : 1`: the alpha default. -/
def jsAlphaOr1 (o : Option ℚ) : ℚ :=
  match o with
  | some v => v
  | none => 1

/-- The string `figmaEffectToCss` pushes for one drop/inner shadow layer. -/
def cssShadowLayer (e : EffectLayer) : String :=
  let x := jsOrZero (e.offset.bind EffOffset.x)
  let y := jsOrZero (e.offset.bind EffOffset.y)
  let blur := jsOrZero e.radius
  let spread := jsOrZero e.spread
  let r := jsRound (jsOrZero (e.color.bind EffColor.r) * 255)
  let g := jsRound (jsOrZero (e.color.bind EffColor.g) * 255)
  let b := jsRound (jsOrZero (e.color.bind EffColor.b) * 255)
  let a := jsAlphaOr1 (e.color.bind EffColor.a)
  let colorString := "rgba(" ++ intRepr r ++ ", " ++ intRepr g ++ ", " ++ intRepr b ++ ", "
    ++ jsRepr a ++ ")"
  let pfx := if e.type = "INNER_SHADOW" then "inset " else ""
  pfx ++ jsRepr x ++ "px " ++ jsRepr y ++ "px " ++ jsRepr blur ++ "px " ++ jsRepr spread
    ++ "px " ++ colorString

/-- The layer types `figmaEffectToCss` keeps. -/
def isShadowLayer (e : EffectLayer) : Bool :=
  if e.type = "DROP_SHADOW" ∨ e.type = "INNER_SHADOW" then true else false

/-- `figmaEffectToCss`: push one string per drop/inner shadow layer, join
with `", "`. -/
def figmaEffectToCss (effects : List EffectLayer) : String :=
  String.intercalate ", "
    (effects.foldl (fun shadows e =>
      if isShadowLayer e then shadows ++ [cssShadowLayer e] else shadows) [])

/-- An effect style record as `normalizeEffects` receives it. -/
structure EffectStyle where
  key : Option String := none
  name : String := ""
  description : Option String := none
  effects : Option (List EffectLayer) := none
  value : Option String := none

/-- The object literal `normalizeEffects` stores for one effect style. -/
def effectStyleToToken (e : EffectStyle) : NormToken :=
  { value :=
      match e.effects with
      | some l => if l.isEmpty then truthyStr e.value else some (figmaEffectToCss l)
      | none => truthyStr e.value
    type := "shadow"
    description := jsStrOr e.description ("Effect: " ++ e.name)
    figmaKey := e.key
    figmaName := e.name }

def normalizeEffects (effects : List EffectStyle) : List (List String × NormToken) :=
  effects.foldl (fun acc e => setKey acc (parseFigmaName e.name) (effectStyleToToken e)) []

/-- The three style collections of the provider payload
(`figmaData.styles`). -/
structure FigmaStyles where
  colors : Option (List ColorStyle) := none
  text : Option (List TextStyle) := none
  effects : Option (List EffectStyle) := none

/-- The provider payload `normalizeTokens` receives. -/
structure FigmaData where
  name : Option String := none
  version : Option String := none
  styles : Option FigmaStyles := none

/-- The metadata block `normalizeTokens` constructs (`extractedAt` is the
run timestamp, passed explicitly here). -/
structure NormMetadata where
  source : String := ""
  extractedAt : String := ""
  fileName : Option String := none
  version : Option String := none

/-- The normalized structure `normalizeTokens` returns. -/
structure NormalizedTokens where
  colors : List (List String × NormToken) := []
  typography : Typography := {}
  effects : List (List String × NormToken) := []
  metadata : NormMetadata := {}

/-- `normalizeTokens`: sections start empty and are filled only when the
corresponding collection is present (`figmaData.styles?.colors` is
`undefined` when `styles` or `colors` is missing; a present array, even
empty, is truthy).  The typography spread overwrites all four sub-maps. -/
def normalizeTokens (figmaData : FigmaData) (extractedAt : String) : NormalizedTokens :=
  { colors :=
      match figmaData.styles.bind FigmaStyles.colors with
      | some cs => normalizeColors cs
      | none => []
    typography :=
      match figmaData.styles.bind FigmaStyles.text with
      | some txts => normalizeTypography txts
      | none => {}
    effects :=
      match figmaData.styles.bind FigmaStyles.effects with
      | some es => normalizeEffects es
      | none => []
    metadata :=
      { source := "figma"
        extractedAt := extractedAt
        fileName := figmaData.name
        version := figmaData.version } }

/-! ## mock-figma-api.js (the `hexToRgb` half of the round-trip) -/

/-- The `{r, g, b, a}` object `hexToRgb` returns; a `none` channel is the
JS `NaN` a bad slice parses to. -/
structure RgbChannels where
  r : Option ℚ := none
  g : Option ℚ := none
  b : Option ℚ := none
  a : ℚ := 1

/-- `hexToRgb`: strip one leading `#`, parse three 2-digit slices base 16,
scale each into [0,1], always `a = 1`. -/
def hexToRgb (hex : String) : RgbChannels :=
  let l := if strStartsWith hex "#" then hex.data.drop 1 else hex.data
  { r := (parseIntHex (l.take 2)).map (fun n => (n : ℚ) / 255)
    g := (parseIntHex ((l.drop 2).take 2)).map (fun n => (n : ℚ) / 255)
    b := (parseIntHex ((l.drop 4).take 2)).map (fun n => (n : ℚ) / 255)
    a := 1 }

/-! ## transform/custom-formats.js (html/documentation core) -/

/-- The text a JS template literal interpolates for a token value. -/
def jvalueText (v : JValue) : String :=
  match v with
  | JValue.str s => s
  | JValue.num q => jsRepr q
  | JValue.null => "undefined"

/-- One character's replacement under `escapeHtml`'s five chained
`replace` calls.  The passes run in the order `&`, `<`, `>`, `"`, `'`, and
no replacement text contains a character a later pass rewrites, so the
chain equals this character-wise map. -/
def escapeChar (c : Char) : String :=
  if c = '&' then "&amp;"
  else if c = '<' then "&lt;"
  else if c = '>' then "&gt;"
  else if c = '"' then "&quot;"
  else if c = Char.ofNat 39 then "&#039;"
  else String.singleton c

/-- `escapeHtml` (the falsy guard returns `''`, which the map also does). -/
def escapeHtml (text : String) : String := String.join (text.data.map escapeChar)

/-- `escapeHtml(token.value)` as the token-value cell calls it: a missing
value hits the falsy guard; rendered token values are strings by the time
a format runs. -/
def escapeHtmlVal (v : JValue) : String :=
  match v with
  | JValue.str s => escapeHtml s
  | JValue.num q => escapeHtml (jsRepr q)
  | JValue.null => ""

/-- Width of the size preview bar: `Math.min(parseFloat(value) * 2, 100)`,
rendered (`NaN` when the parse fails). -/
def sizePreviewWidth (t : Token) : String :=
  match parseFloatQ (jvalueText t.value) with
  | some v => jsRepr (min (v * 2) 100)
  | none => "NaN"

/-- `generatePreview`: color swatch (the token value is interpolated raw
into the style attribute), size bar, or nothing. -/
def generatePreview (t : Token) : String :=
  if t.type = some "color" then
    "<div class=\"color-swatch\" style=\"background: " ++ jvalueText t.value ++ ";\"></div>"
  else if t.type = some "dimension" ∨ t.type = some "fontSize" then
    "<div class=\"size-preview\" style=\"width: " ++ sizePreviewWidth t ++ "px;\"></div>"
  else ""

/-- JS `a || b` over two optional strings, keeping JS truthiness. -/
def jsStrOrOpt (a b : Option String) : Option String :=
  match truthyStr a with
  | some s => some s
  | none => truthyStr b

/-- The HTML block `html/documentation` appends for one token. -/
def htmlTokenBlock (t : Token) : String :=
  "      <div class=\"token\">\n        <div class=\"token-name\">" ++ t.name
    ++ "</div>\n        <div class=\"token-value\">" ++ escapeHtmlVal t.value
    ++ "</div>\n        <div class=\"token-preview\">" ++ generatePreview t
    ++ "</div>\n        <div class=\"token-type\">" ++ jsStrOr t.type "unknown"
    ++ "</div>\n"
  ++ (match jsStrOrOpt t.description t.comment with
      | some d => "        <div class=\"token-description\">" ++ escapeHtml d ++ "</div>\n"
      | none => "")
  ++ "      </div>\n"

/-- `token.path[0] || 'other'`: the grouping key (an empty first segment is
falsy). -/
def categoryKey (t : Token) : String :=
  match t.path.head? with
  | some s => if s = "" then "other" else s
  | none => "other"

/-- Append a token under its key, preserving first-seen key order (JS
object insertion order with array push). -/
def addToGroup : List (String × List Token) → String → Token → List (String × List Token)
  | [], k, t => [(k, [t])]
  | (k', ts) :: rest, k, t =>
    if k' = k then (k', ts ++ [t]) :: rest else (k', ts) :: addToGroup rest k t

/-- The per-category grouping every documentation format performs. -/
def groupTokens (toks : List Token) : List (String × List Token) :=
  toks.foldl (fun acc t => addToGroup acc (categoryKey t) t) []

/-- `capitalize`. -/
def capitalize (s : String) : String :=
  match s.data with
  | [] => ""
  | c :: rest => ⟨c.toUpper :: rest⟩

/-- One `<div class="category">` section of `html/documentation`. -/
def htmlCategorySection (category : String) (ts : List Token) : String :=
  "    <div class=\"category\">\n      <h2>" ++ capitalize category ++ "</h2>\n"
    ++ String.join (ts.map htmlTokenBlock)
    ++ "    </div>\n"

/-- The token-rendering body of the `html/documentation` format (the
surrounding document head/foot are constant text plus the title option and
a generation timestamp, and embed no token field). -/
def htmlCategorySections (toks : List Token) : String :=
  String.join ((groupTokens toks).map (fun p => htmlCategorySection p.1 p.2))

/-! ## Definitions written from the specification's words (for refinement
claims; each is compared with the corresponding source-derived definition
above) -/

/-- The claim's prefix table for `name/semantic`: color→color,
dimension→size, fontFamily→font, fontSize→font-size, fontWeight→font-weight,
lineHeight→line-height, shadow→shadow, number→number; no prefix otherwise. -/
def specTypePrefixMap (ty : Option String) : Option String :=
  match ty with
  | some t =>
    if t = "color" then some "color"
    else if t = "dimension" then some "size"
    else if t = "fontFamily" then some "font"
    else if t = "fontSize" then some "font-size"
    else if t = "fontWeight" then some "font-weight"
    else if t = "lineHeight" then some "line-height"
    else if t = "shadow" then some "shadow"
    else if t = "number" then some "number"
    else none
  | none => none

/-- The semantic name as the claim words it: the type-derived prefix
segment prepended unless the path's first segment already equals it, all
segments joined with `-`, lower-cased, characters outside [a-z0-9-]
replaced by `-`, repeated `-` collapsed, leading/trailing `-` trimmed. -/
def specSemanticName (t : Token) : String :=
  let parts :=
    match specTypePrefixMap t.type with
    | some p => if t.path.head? = some p then t.path else p :: t.path
    | none => t.path
  trimEdgeDashes (collapseDashes (sanitizeNameString (String.intercalate "-" parts)))

/-- One shadow layer as the spec words it:
`"<inset ><x>px <y>px <blur>px <spread>px rgba(r,g,b,a)"`, the `inset `
prefix only on inner-shadow layers, a missing offset defaulting both
offsets to 0, a missing color defaulting to opaque black, channels rounded
to nearest integer via the [0,1]→255 scaling. -/
def specShadowLayer (e : EffectLayer) : String :=
  let xy : ℚ × ℚ :=
    match e.offset with
    | none => (0, 0)
    | some o => (jsOrZero o.x, jsOrZero o.y)
  let rgba : ℤ × ℤ × ℤ × ℚ :=
    match e.color with
    | none => (0, 0, 0, 1)
    | some c =>
      (jsRound (jsOrZero c.r * 255), jsRound (jsOrZero c.g * 255),
        jsRound (jsOrZero c.b * 255), jsAlphaOr1 c.a)
  let rgbaText := "rgba(" ++ intRepr rgba.1 ++ ", " ++ intRepr rgba.2.1 ++ ", "
    ++ intRepr rgba.2.2.1 ++ ", " ++ jsRepr rgba.2.2.2 ++ ")"
  (if e.type = "INNER_SHADOW" then "inset " else "")
    ++ jsRepr xy.1 ++ "px " ++ jsRepr xy.2 ++ "px "
    ++ jsRepr (jsOrZero e.radius) ++ "px " ++ jsRepr (jsOrZero e.spread) ++ "px "
    ++ rgbaText

/-! ## Concrete inputs used by the claims -/

/-- C1's failing input: a color style whose alpha is present and not 1. -/
def alphaColorRecord : ColorStyle :=
  { name := "overlay/scrim", color := some { r := 0, g := 0, b := 0, a := some (1 / 2) } }

/-- The Style Dictionary token C1's adapter output becomes (same value and
absent alpha). -/
def opaqueHexToken : Token :=
  { path := ["overlay", "scrim"], type := some "color",
    value := JValue.str "#000000",
    alpha := (colorStyleToToken alphaColorRecord).alpha }

/-- C6's scenario record: pixel line-height 24 over font size 16. -/
def lineHeightStyle : TextStyle :=
  { name := "lineHeight/normal", fontSize := some 16, lineHeight := some 24 }

/-- C7's default-exercising layer: a drop shadow with every field missing. -/
def bareDropShadow : EffectLayer := { type := "DROP_SHADOW" }

/-- C8's failing input: a color token whose value carries markup. -/
def injectionToken : Token :=
  { name := "colors-danger", path := ["colors", "danger"], type := some "color",
    value := JValue.str "\"><script>alert(1)</script>" }

/-- C9's scenario token: an alias value in reference syntax. -/
def referenceToken : Token := { value := JValue.str "\x7bcolors.primary.500\x7d" }

/-! ## Supporting lemmas -/

theorem data_mk (l : List Char) : (String.mk l).data = l := rfl

theorem digitChar_isDigit {d : ℕ} (h : d < 10) : (digitChar d).isDigit = true := by
  interval_cases d <;> decide

theorem digitChar_toNat {d : ℕ} (h : d < 10) : (digitChar d).toNat = 48 + d := by
  interval_cases d <;> decide

theorem natDigitsAux_isDigit :
    ∀ fuel n, n ≤ fuel → ∀ c ∈ natDigitsAux fuel n, c.isDigit = true := by
  intro fuel
  induction fuel with
  | zero =>
    intro n hn c hc
    interval_cases n
    simp only [natDigitsAux, List.mem_singleton] at hc
    subst hc; decide
  | succ f ih =>
    intro n hn c hc
    rw [natDigitsAux] at hc
    split at hc
    · rename_i h10
      simp only [List.mem_singleton] at hc
      subst hc
      exact digitChar_isDigit h10
    · rename_i h10
      rcases List.mem_append.mp hc with h | h
      · exact ih (n / 10) (by omega) c h
      · simp only [List.mem_singleton] at h
        subst h
        exact digitChar_isDigit (Nat.mod_lt _ (by omega))

theorem natDigits_isDigit (n : ℕ) : ∀ c ∈ natDigits n, c.isDigit = true :=
  natDigitsAux_isDigit n n le_rfl

theorem natDigitsAux_ne_nil (fuel n : ℕ) : natDigitsAux fuel n ≠ [] := by
  cases fuel with
  | zero => simp [natDigitsAux]
  | succ f =>
    rw [natDigitsAux]
    split <;> simp

theorem digitsVal_append (l : List Char) (c : Char) :
    digitsVal (l ++ [c]) = 10 * digitsVal l + (c.toNat - 48) := by
  simp [digitsVal, List.foldl_append]

theorem natDigitsAux_val : ∀ fuel n, n ≤ fuel → digitsVal (natDigitsAux fuel n) = n := by
  intro fuel
  induction fuel with
  | zero =>
    intro n hn
    interval_cases n
    simp [natDigitsAux, digitsVal, digitChar]
  | succ f ih =>
    intro n hn
    rw [natDigitsAux]
    split
    · rename_i h10
      simp only [digitsVal, List.foldl]
      rw [digitChar_toNat h10]
      omega
    · rename_i h10
      rw [digitsVal_append, ih (n / 10) (by omega), digitChar_toNat (Nat.mod_lt _ (by omega))]
      omega

theorem natDigits_val (n : ℕ) : digitsVal (natDigits n) = n :=
  natDigitsAux_val n n le_rfl

theorem isDigit_ne_p {c : Char} (h : c.isDigit = true) : c ≠ 'p' := by
  rintro rfl; revert h; decide

theorem isDigit_ne_dash {c : Char} (h : c.isDigit = true) : c ≠ '-' := by
  rintro rfl; revert h; decide

theorem isDigit_ne_plus {c : Char} (h : c.isDigit = true) : c ≠ '+' := by
  rintro rfl; revert h; decide

theorem isDigit_ne_dot {c : Char} (h : c.isDigit = true) : c ≠ '.' := by
  rintro rfl; revert h; decide

theorem isDigit_not_ws {c : Char} (h : c.isDigit = true) : c.isWhitespace = false := by
  cases hw : c.isWhitespace
  · rfl
  · exfalso
    simp only [Char.isWhitespace, Bool.or_eq_true, decide_eq_true_eq] at hw
    rcases hw with ((rfl | rfl) | rfl) | rfl <;> revert h <;> decide

theorem listIsInfix_two_false {a b : Char} {l : List Char} (h : a ∉ l) :
    listIsInfix [a, b] l = false := by
  induction l with
  | nil => rfl
  | cons c rest ih =>
    have h1 : a ≠ c := fun e => h (e ▸ List.mem_cons_self c rest)
    have h2 : a ∉ rest := fun hm => h (List.mem_cons_of_mem c hm)
    rw [listIsInfix]
    simp [List.isPrefixOf, h1, ih h2]

theorem mem_toFixed {k : ℕ} {q : ℚ} {c : Char} (h : c ∈ (toFixed k q).data) :
    c.isDigit = true ∨ c = '-' ∨ c = '.' := by
  by_cases hk : k = 0 <;> by_cases hq : q < 0 <;>
    simp [toFixed, hk, hq, natRepr, padZeros,
      show ("-" : String).data = ['-'] from rfl,
      show ("." : String).data = ['.'] from rfl,
      show ("" : String).data = ([] : List Char) from rfl,
      String.data_append, data_mk] at h
  · rcases h with rfl | h
    · exact Or.inr (Or.inl rfl)
    · exact Or.inl (natDigits_isDigit _ c h)
  · exact Or.inl (natDigits_isDigit _ c h)
  · rcases h with rfl | h | rfl | ⟨-, rfl⟩ | h
    · exact Or.inr (Or.inl rfl)
    · exact Or.inl (natDigits_isDigit _ c h)
    · exact Or.inr (Or.inr rfl)
    · exact Or.inl (by decide)
    · exact Or.inl (natDigits_isDigit _ c h)
  · rcases h with h | rfl | ⟨-, rfl⟩ | h
    · exact Or.inl (natDigits_isDigit _ c h)
    · exact Or.inr (Or.inr rfl)
    · exact Or.inl (by decide)
    · exact Or.inl (natDigits_isDigit _ c h)

theorem px_not_mem_pxToRemValue (base : ℚ) (s : String) :
    ('p' : Char) ∉ (pxToRemValue base s).data := by
  intro hp
  rw [pxToRemValue, String.data_append] at hp
  rcases List.mem_append.mp hp with h | h
  · rcases hpf : parseFloatQ s with _ | v <;> rw [hpf] at h
    · exact absurd (show ('p' : Char) ∈ ("NaN" : String).data from h) (by decide)
    · rcases mem_toFixed (show ('p' : Char) ∈ (toFixed 3 (v / base)).data from h)
        with hd | hd | hd
      · exact absurd hd (by decide)
      · exact absurd hd (by decide)
      · exact absurd hd (by decide)
  · exact absurd (show ('p' : Char) ∈ ("rem" : String).data from h) (by decide)

theorem pxToRemValue_no_px (base : ℚ) (s : String) :
    strIncludes (pxToRemValue base s) "px" = false :=
  listIsInfix_two_false (px_not_mem_pxToRemValue base s)

theorem applyPxToRem_of_filter_false (opts : TransformOptions) (t : Token)
    (h : pxToRemFilter t = false) : applyPxToRem opts t = t := by
  rw [applyPxToRem, if_neg (by simp [h])]

theorem applyPxToRem_filter_after (opts : TransformOptions) (t : Token)
    (hf : pxToRemFilter t = true) :
    pxToRemFilter (applyPxToRem opts t) = false := by
  rw [applyPxToRem, if_pos hf, pxToRemFilter]
  split
  · exact pxToRemValue_no_px _ _
  · rfl

theorem applyPxToRem_idem (opts : TransformOptions) (t : Token) :
    applyPxToRem opts (applyPxToRem opts t) = applyPxToRem opts t := by
  by_cases hf : pxToRemFilter t = true
  · exact applyPxToRem_of_filter_false opts _ (applyPxToRem_filter_after opts t hf)
  · have hff : pxToRemFilter t = false := Bool.eq_false_iff.mpr hf
    rw [applyPxToRem_of_filter_false opts t hff, applyPxToRem_of_filter_false opts t hff]

theorem specTypePrefixMap_eq (ty : Option String) :
    specTypePrefixMap ty = if getTypePrefix ty = "" then none else some (getTypePrefix ty) := by
  cases ty with
  | none => rfl
  | some t =>
    simp only [specTypePrefixMap, getTypePrefix]
    split_ifs <;> simp_all

theorem nameSemanticParts_eq_spec (t : Token) :
    nameSemanticParts t =
      (match specTypePrefixMap t.type with
        | some p => if t.path.head? = some p then t.path else p :: t.path
        | none => t.path) := by
  rw [specTypePrefixMap_eq]
  by_cases hp : getTypePrefix t.type = ""
  · rw [if_pos hp]
    simp [nameSemanticParts, hp]
  · rw [if_neg hp]
    simp only [nameSemanticParts]
    rw [if_neg hp]

theorem nameSemanticParts_nonempty (t : Token) (h : ∀ s ∈ t.path, s ≠ "") :
    ∀ s ∈ nameSemanticParts t, s ≠ "" := by
  intro s hs
  simp only [nameSemanticParts] at hs
  split at hs
  · exact h s hs
  · split at hs
    · exact h s hs
    · rcases List.mem_cons.mp hs with rfl | hs
      · rename_i hpfx _
        exact hpfx
      · exact h s hs

theorem nameSemantic_eq_spec (t : Token) (h : ∀ s ∈ t.path, s ≠ "") :
    nameSemantic t = specSemanticName t := by
  have hfil : (nameSemanticParts t).filter (fun part => part ≠ "") = nameSemanticParts t := by
    rw [List.filter_eq_self]
    intro a ha
    simpa using nameSemanticParts_nonempty t h a ha
  simp only [nameSemantic, specSemanticName]
  rw [hfil, nameSemanticParts_eq_spec]

/-! ## The claims -/

/-- C2: for every token whose path segments are nonempty identifiers (the
data model's invariant), the `name/semantic` transform returns exactly the
name the specification describes — type-derived prefix prepended unless the
first path segment already equals it, joined with `-`, lower-cased,
sanitized, dashes collapsed and trimmed; in particular path
`["primary","500"]` of type color yields `"color-primary-500"`. -/
theorem c2_semantic_naming (t : Token) (h : ∀ s ∈ t.path, s ≠ "") :
    nameSemantic t = specSemanticName t ∧
    nameSemantic { path := ["primary", "500"], type := some "color" } = "color-primary-500" :=
  ⟨nameSemantic_eq_spec t h, by decide⟩

/-- C2, witness: the theorem applied at the scenario token. -/
theorem c2_semantic_naming_witness :
    nameSemantic { path := ["primary", "500"], type := some "color" } =
      specSemanticName { path := ["primary", "500"], type := some "color" } ∧
    nameSemantic { path := ["primary", "500"], type := some "color" } = "color-primary-500" :=
  c2_semantic_naming { path := ["primary", "500"], type := some "color" } (by decide)

theorem takeWhile_append_all {p : Char → Bool} (l rest : List Char)
    (h1 : ∀ c ∈ l, p c = true) (h2 : ∀ c ∈ rest.take 1, p c = false) :
    (l ++ rest).takeWhile p = l := by
  induction l with
  | nil =>
    cases rest with
    | nil => rfl
    | cons c t =>
      have hc := h2 c (by simp)
      simp [List.takeWhile, hc]
  | cons a l ih =>
    have ha := h1 a (by simp)
    simp only [List.cons_append, List.takeWhile, ha, if_true]
    exact congrArg (a :: ·) (ih (fun c hc => h1 c (by simp [hc])))

theorem dropWhile_append_all {p : Char → Bool} (l rest : List Char)
    (h1 : ∀ c ∈ l, p c = true) (h2 : ∀ c ∈ rest.take 1, p c = false) :
    (l ++ rest).dropWhile p = rest := by
  induction l with
  | nil =>
    cases rest with
    | nil => rfl
    | cons c t =>
      have hc := h2 c (by simp)
      simp [List.dropWhile, hc]
  | cons a l ih =>
    have ha := h1 a (by simp)
    simp only [List.cons_append, List.dropWhile, ha, if_true]
    exact ih (fun c hc => h1 c (by simp [hc]))

theorem parseFloat_digits_suffix (l rest : List Char) (hl : l ≠ [])
    (hdig : ∀ c ∈ l, c.isDigit = true)
    (hrest : ∀ c ∈ rest.take 1, c.isDigit = false ∧ c ≠ '.') :
    parseFloatQ ⟨l ++ rest⟩ = some ((digitsVal l : ℚ)) := by
  obtain ⟨c, t, rfl⟩ : ∃ c t, l = c :: t := by
    cases l with
    | nil => exact absurd rfl hl
    | cons c t => exact ⟨c, t, rfl⟩
  have hc := hdig c (by simp)
  have hdrop : ((c :: t ++ rest).dropWhile (fun c => c.isWhitespace)) = c :: (t ++ rest) := by
    simp [List.dropWhile, isDigit_not_ws hc]
  have htake : (c :: t ++ rest).takeWhile Char.isDigit = c :: t :=
    takeWhile_append_all _ _ hdig (fun x hx => ((hrest x hx).1))
  have hdropd : (c :: t ++ rest).dropWhile Char.isDigit = rest :=
    dropWhile_append_all _ _ hdig (fun x hx => ((hrest x hx).1))
  have hnm : (c :: (t ++ rest)).head? ≠ some '-' := by
    simp [isDigit_ne_dash hc]
  have hnd : rest.head? ≠ some '.' := by
    cases rest with
    | nil => simp
    | cons r rt =>
      have := (hrest r (by simp)).2
      simp [this]
  simp only [parseFloatQ, data_mk, hdrop]
  rw [if_neg hnm, if_neg (by
    simp [isDigit_ne_dash hc, isDigit_ne_plus hc] :
      ¬((c :: (t ++ rest)).head? = some '-' ∨ (c :: (t ++ rest)).head? = some '+'))]
  rw [show (c :: (t ++ rest)) = (c :: t) ++ rest from rfl]
  rw [htake, hdropd, if_neg hnd]
  rw [if_neg (by simp : ¬(c :: t = [] ∧ ([] : List Char) = []))]
  simp [digitsVal]

theorem parseFloatQ_natRepr_px (n : ℕ) :
    parseFloatQ (natRepr n ++ "px") = some ((n : ℚ)) := by
  have h := parseFloat_digits_suffix (natDigits n) ['p', 'x'] (natDigitsAux_ne_nil n n)
    (natDigits_isDigit n) (by
      intro c hc
      simp at hc
      subst hc
      exact ⟨by decide, by decide⟩)
  rw [show (natRepr n ++ "px" : String) = ⟨natDigits n ++ ['p', 'x']⟩ from rfl, h,
    natDigits_val n]

theorem pxToRemValue_natRepr (n : ℕ) (base : ℚ) :
    pxToRemValue base (natRepr n ++ "px") = toFixed 3 ((n : ℚ) / base) ++ "rem" := by
  rw [pxToRemValue, parseFloatQ_natRepr_px]

theorem pxToRemValue_24px : pxToRemValue 16 "24px" = "1.500rem" := by
  have h24 : parseFloatQ "24px" = some ((24 : ℚ)) := by
    have h := parseFloatQ_natRepr_px 24
    rw [show (natRepr 24 ++ "px" : String) = "24px" from by decide] at h
    simpa using h
  rw [pxToRemValue, h24]
  show toFixed 3 ((24 : ℚ) / 16) ++ "rem" = "1.500rem"
  have hfl : ⌊|(24 : ℚ) / 16| * 10 ^ 3 + 1 / 2⌋ = (1500 : ℤ) := by
    rw [show |(24 : ℚ) / 16| = 3 / 2 by norm_num]
    norm_num
  have hneg : ¬((24 : ℚ) / 16 < 0) := by norm_num
  simp only [toFixed, hfl, if_neg hneg]
  decide

theorem pxToRemValue_1500rem : pxToRemValue 16 "1.500rem" = "0.094rem" := by
  have hp : parseFloatQ "1.500rem"
      = some (1 * (((1 : ℕ) : ℚ) + ((500 : ℕ) : ℚ) / 10 ^ (3 : ℕ))) := rfl
  rw [pxToRemValue, hp]
  show toFixed 3 ((1 * (((1 : ℕ) : ℚ) + ((500 : ℕ) : ℚ) / 10 ^ (3 : ℕ))) / 16) ++ "rem"
      = "0.094rem"
  have hq : (1 * (((1 : ℕ) : ℚ) + ((500 : ℕ) : ℚ) / 10 ^ (3 : ℕ))) / 16 = 3 / 32 := by
    push_cast
    norm_num
  rw [hq]
  have hfl : ⌊|(3 : ℚ) / 32| * 10 ^ 3 + 1 / 2⌋ = (94 : ℤ) := by
    rw [show |(3 : ℚ) / 32| = 3 / 32 by norm_num]
    norm_num
  have hneg : ¬((3 : ℚ) / 32 < 0) := by norm_num
  simp only [toFixed, hfl, if_neg hneg]
  decide

/-- C3, counterexample: a dimension token whose string value contains `px`
without ending in it passes the `size/px-to-rem` filter
(`token.value.includes('px')`), so the transform does not apply "exactly to
tokens whose value ends in a pixel unit". -/
theorem c3_px_filter_counterexample :
    pxToRemFilter { type := some "dimension", value := JValue.str "1px2" } = true ∧
    strEndsWith "1px2" "px" = false := by decide

/-- C3, amended: the `size/px-to-rem` filter accepts exactly the
dimension/fontSize tokens whose string value contains the substring `px`
(not necessarily as a suffix); an accepted value parses its leading number,
divides it by the base unit and renders 3 decimal digits plus `rem`;
filtered-out tokens pass through unchanged; `"24px"` at base 16 becomes
`"1.500rem"`. -/
theorem c3_px_to_rem_amended :
    (∀ t : Token, pxToRemFilter t = true ↔
      ((t.type = some "dimension" ∨ t.type = some "fontSize") ∧
        ∃ s, t.value = JValue.str s ∧ strIncludes s "px" = true))
    ∧ (∀ (n : ℕ) (base : ℚ),
        pxToRemValue base (natRepr n ++ "px") = toFixed 3 ((n : ℚ) / base) ++ "rem")
    ∧ (∀ (opts : TransformOptions) (t : Token),
        pxToRemFilter t = false → applyPxToRem opts t = t)
    ∧ pxToRemValue 16 "24px" = "1.500rem" := by
  refine ⟨?_, pxToRemValue_natRepr, ?_, ?_⟩
  · intro t
    constructor
    · intro hf
      rw [pxToRemFilter] at hf
      split at hf
      · rename_i hty
        rcases hv : t.value with s | q | _ <;> rw [hv] at hf
        · exact ⟨hty, s, rfl, hf⟩
        · exact absurd hf (by simp)
        · exact absurd hf (by simp)
      · exact absurd hf (by simp)
    · rintro ⟨hty, s, hv, hinc⟩
      simp [pxToRemFilter, hty, hv, hinc]
  · intro opts t h
    exact applyPxToRem_of_filter_false opts t h
  · exact pxToRemValue_24px

/-- C4, counterexample: the `size/px-to-rem` transform as gated by its
filter IS idempotent — no token exists on which filtered application twice
differs from once, because a transformed value never contains `px` and so
fails the filter on the second pass. -/
theorem c4_filtered_idempotent_counterexample :
    ¬ ∃ (opts : TransformOptions) (t : Token),
        applyPxToRem opts (applyPxToRem opts t) ≠ applyPxToRem opts t := by
  rintro ⟨opts, t, hne⟩
  exact hne (applyPxToRem_idem opts t)

/-- C4, amended: the bare transform function of `size/px-to-rem` is not
idempotent (at `"24px"` once gives `"1.500rem"`, twice `"0.094rem"`), but
with its filter the application is idempotent for every token; the
`name/semantic` and `attribute/category` transforms are idempotent (the
latter for tokens with a nonempty path, on which the JS code is defined). -/
theorem c4_idempotence_amended :
    pxToRemValue 16 (pxToRemValue 16 "24px") ≠ pxToRemValue 16 "24px"
    ∧ (∀ (opts : TransformOptions) (t : Token),
        applyPxToRem opts (applyPxToRem opts t) = applyPxToRem opts t)
    ∧ (∀ t : Token, applyNameSemantic (applyNameSemantic t) = applyNameSemantic t)
    ∧ (∀ t : Token, t.path ≠ [] →
        applyAttrCategory (applyAttrCategory t) = applyAttrCategory t) := by
  refine ⟨?_, applyPxToRem_idem, fun t => rfl, fun t _ => rfl⟩
  rw [pxToRemValue_24px, pxToRemValue_1500rem]
  decide

theorem hex_mem_isSome : ∀ c ∈ "0123456789ABCDEF".data, (hexDigitVal c).isSome = true := by
  decide

theorem parseIntHex_pair (c d : Char) (hc : (hexDigitVal c).isSome = true)
    (hd : (hexDigitVal d).isSome = true) :
    parseIntHex [c, d] = some (16 * hexValD c + hexValD d) := by
  simp only [parseIntHex]
  rw [show ([c, d].takeWhile fun c => (hexDigitVal c).isSome) = [c, d] by
    simp [List.takeWhile, hc, hd]]
  rw [if_neg (by simp)]
  simp [hexValD]

theorem jsRound_natCast (n : ℕ) : jsRound ((n : ℚ)) = (n : ℤ) := by
  rw [jsRound]
  rw [show ((n : ℚ) + 1 / 2) = (1 / 2 : ℚ) + ((n : ℤ) : ℚ) by push_cast; ring]
  rw [Int.floor_add_int]
  norm_num

theorem toHexByte_natCast (n : ℕ) :
    toHexByte ((n : ℚ)) = upperStr (padStart2 (intHexRepr ((n : ℤ)))) := by
  rw [toHexByte, jsRound_natCast]

set_option maxRecDepth 4000 in
theorem hexPair_upper : ∀ a ∈ "0123456789ABCDEF".data, ∀ b ∈ "0123456789ABCDEF".data,
    upperStr (padStart2 (intHexRepr ((16 * hexValD a + hexValD b : ℕ) : ℤ))) = ⟨[a, b]⟩ := by
  decide

/-- C5, counterexample: `"#ff0000"` is a valid 6-digit hex color string, yet
the round trip through `hexToRgb` and `rgbToHex` (scaling by 255) returns
`"#FF0000"`, a different string — the claim's `rgbToHex(hexToRgb(x)) == x`
fails for lowercase input (the channels themselves are recovered exactly). -/
theorem c5_lowercase_counterexample :
    hexToRgb "#ff0000" = { r := some 1, g := some 0, b := some 0, a := 1 }
    ∧ rgbToHex (1 * 255) (0 * 255) (0 * 255) = "#FF0000"
    ∧ ("#FF0000" : String) ≠ "#ff0000" := by
  refine ⟨?_, ?_, by decide⟩
  · have h0 : hexToRgb "#ff0000"
        = { r := some (((255 : ℕ) : ℚ) / 255)
            g := some (((0 : ℕ) : ℚ) / 255)
            b := some (((0 : ℕ) : ℚ) / 255)
            a := 1 } := rfl
    rw [h0]
    simp only [RgbChannels.mk.injEq, Option.some.injEq]
    norm_num
  · have hf : ((1 : ℚ) * 255) = ((255 : ℕ) : ℚ) := by norm_num
    have h00 : ((0 : ℚ) * 255) = ((0 : ℕ) : ℚ) := by norm_num
    rw [rgbToHex]
    simp only [hf, h00, toHexByte_natCast]
    decide

/-- C5, amended: for every string of `#` followed by six uppercase hex
digits, `hexToRgb` decodes channels `n/255`, scaling by 255 recovers each
channel value exactly (so within the claimed ±1), and `rgbToHex` returns
the original string. -/
theorem c5_roundtrip_amended (c1 c2 c3 c4 c5 c6 : Char)
    (h1 : c1 ∈ "0123456789ABCDEF".data) (h2 : c2 ∈ "0123456789ABCDEF".data)
    (h3 : c3 ∈ "0123456789ABCDEF".data) (h4 : c4 ∈ "0123456789ABCDEF".data)
    (h5 : c5 ∈ "0123456789ABCDEF".data) (h6 : c6 ∈ "0123456789ABCDEF".data) :
    ∃ r g b : ℚ,
      hexToRgb ⟨['#', c1, c2, c3, c4, c5, c6]⟩
        = { r := some r, g := some g, b := some b, a := 1 }
      ∧ r * 255 = ((16 * hexValD c1 + hexValD c2 : ℕ) : ℚ)
      ∧ g * 255 = ((16 * hexValD c3 + hexValD c4 : ℕ) : ℚ)
      ∧ b * 255 = ((16 * hexValD c5 + hexValD c6 : ℕ) : ℚ)
      ∧ rgbToHex (r * 255) (g * 255) (b * 255) = ⟨['#', c1, c2, c3, c4, c5, c6]⟩ := by
  refine ⟨((16 * hexValD c1 + hexValD c2 : ℕ) : ℚ) / 255,
    ((16 * hexValD c3 + hexValD c4 : ℕ) : ℚ) / 255,
    ((16 * hexValD c5 + hexValD c6 : ℕ) : ℚ) / 255, ?_, ?_, ?_, ?_, ?_⟩
  · have h0 : hexToRgb ⟨['#', c1, c2, c3, c4, c5, c6]⟩
        = { r := (parseIntHex [c1, c2]).map (fun n => (n : ℚ) / 255)
            g := (parseIntHex [c3, c4]).map (fun n => (n : ℚ) / 255)
            b := (parseIntHex [c5, c6]).map (fun n => (n : ℚ) / 255)
            a := 1 } := rfl
    rw [h0, parseIntHex_pair c1 c2 (hex_mem_isSome c1 h1) (hex_mem_isSome c2 h2),
      parseIntHex_pair c3 c4 (hex_mem_isSome c3 h3) (hex_mem_isSome c4 h4),
      parseIntHex_pair c5 c6 (hex_mem_isSome c5 h5) (hex_mem_isSome c6 h6)]
    rfl
  · exact div_mul_cancel₀ _ (by norm_num)
  · exact div_mul_cancel₀ _ (by norm_num)
  · exact div_mul_cancel₀ _ (by norm_num)
  · have hcan : ∀ N : ℕ, ((N : ℚ) / 255) * 255 = (N : ℚ) :=
      fun N => div_mul_cancel₀ _ (by norm_num)
    rw [rgbToHex]
    simp only [hcan, toHexByte_natCast]
    rw [hexPair_upper c1 h1 c2 h2, hexPair_upper c3 h3 c4 h4, hexPair_upper c5 h5 c6 h6]
    rfl

/-- C5, witness: the amended round trip at `"#FF0000"`. -/
theorem c5_roundtrip_witness :
    ∃ r g b : ℚ,
      hexToRgb ⟨['#', 'F', 'F', '0', '0', '0', '0']⟩
        = { r := some r, g := some g, b := some b, a := 1 }
      ∧ r * 255 = ((16 * hexValD 'F' + hexValD 'F' : ℕ) : ℚ)
      ∧ g * 255 = ((16 * hexValD '0' + hexValD '0' : ℕ) : ℚ)
      ∧ b * 255 = ((16 * hexValD '0' + hexValD '0' : ℕ) : ℚ)
      ∧ rgbToHex (r * 255) (g * 255) (b * 255) = ⟨['#', 'F', 'F', '0', '0', '0', '0']⟩ :=
  c5_roundtrip_amended 'F' 'F' '0' '0' '0' '0' (by decide) (by decide) (by decide)
    (by decide) (by decide) (by decide)

/-- C1: evaluation at the failing input.  The color style record
`alphaColorRecord` has an alpha channel present and not 1, yet the token
`normalizeColors` produces for it carries no alpha (its object literal has
only value/type/description/source), so the `color/css-rgba` filter
(`token.alpha !== undefined`) rejects it and the color renders as opaque
hex `#000000` instead of an rgba value. -/
theorem c1_adapter_drops_alpha :
    ((1 : ℚ) / 2) ≠ 1
    ∧ (colorStyleToToken alphaColorRecord).alpha = none
    ∧ (colorStyleToToken alphaColorRecord).value = some "#000000"
    ∧ cssRgbaFilter opaqueHexToken = false
    ∧ normalizeColors [alphaColorRecord]
      = [(["overlay", "scrim"], colorStyleToToken alphaColorRecord)] := by
  refine ⟨by norm_num, rfl, ?_, rfl, rfl⟩
  show some (rgbToHex ((0 : ℚ) * 255) ((0 : ℚ) * 255) ((0 : ℚ) * 255)) = some "#000000"
  have h00 : ((0 : ℚ) * 255) = ((0 : ℕ) : ℚ) := by norm_num
  rw [rgbToHex]
  simp only [h00, toHexByte_natCast]
  decide

theorem normTypStep_lineHeight (acc : Typography) (style : TextStyle) (lh : ℚ)
    (hl : truthyNum style.lineHeight = some lh) :
    (normTypStep acc style).lineHeight
      = setKey acc.lineHeight (tsTokenName style) (lineHeightToken style lh) := by
  rcases h1 : truthyStr style.fontFamily with _ | ff <;>
    rcases h2 : truthyNum style.fontSize with _ | fs <;>
      rcases h3 : truthyNum style.fontWeight with _ | fw <;>
        simp [normTypStep, hl, h1, h2, h3]

/-- C6: for every text style record with a truthy pixel line-height, the
resulting lineHeight token's value is `(lineHeight / fontSize).toFixed(2)`
as a string when a truthy font size is also present, and the raw value
rendered as a string when no font size is present; `normalizeTypography`
stores exactly that token; the scenario record (fontSize 16, pixel
line-height 24) yields value `"1.50"`. -/
theorem c6_lineheight_ratio (style : TextStyle) (lh fs : ℚ)
    (hl : style.lineHeight = some lh) (hl0 : lh ≠ 0) :
    (style.fontSize = some fs → fs ≠ 0 →
      (lineHeightToken style lh).value = some (toFixed 2 (lh / fs)))
    ∧ (style.fontSize = none → (lineHeightToken style lh).value = some (jsRepr lh))
    ∧ (normalizeTypography [style]).lineHeight
        = [(tsTokenName style, lineHeightToken style lh)]
    ∧ (lineHeightToken lineHeightStyle 24).value = some "1.50" := by
  refine ⟨?_, ?_, ?_, ?_⟩
  · intro hfs hfs0
    simp [lineHeightToken, lineHeightValue, truthyNum, hfs, hfs0]
  · intro hfs
    simp [lineHeightToken, lineHeightValue, truthyNum, hfs]
  · have htr : truthyNum style.lineHeight = some lh := by simp [truthyNum, hl, hl0]
    show (List.foldl normTypStep {} [style]).lineHeight = _
    rw [List.foldl_cons, List.foldl_nil, normTypStep_lineHeight _ style lh htr]
    rfl
  · show some (lineHeightValue lineHeightStyle 24) = some "1.50"
    have hv : lineHeightValue lineHeightStyle 24 = toFixed 2 ((24 : ℚ) / 16) := by
      rw [lineHeightValue,
        show truthyNum lineHeightStyle.fontSize = some 16 from by norm_num [truthyNum, lineHeightStyle]]
    rw [hv]
    have hfl : ⌊|(24 : ℚ) / 16| * 10 ^ 2 + 1 / 2⌋ = (150 : ℤ) := by
      rw [show |(24 : ℚ) / 16| = 3 / 2 by norm_num]
      norm_num
    have hneg : ¬((24 : ℚ) / 16 < 0) := by norm_num
    simp only [toFixed, hfl, if_neg hneg]
    decide

/-- C6, witness: the theorem applied at the scenario record. -/
theorem c6_lineheight_ratio_witness :
    ((lineHeightStyle.fontSize = some 16 → (16 : ℚ) ≠ 0 →
      (lineHeightToken lineHeightStyle 24).value = some (toFixed 2 ((24 : ℚ) / 16)))
    ∧ (lineHeightStyle.fontSize = none →
      (lineHeightToken lineHeightStyle 24).value = some (jsRepr 24))
    ∧ (normalizeTypography [lineHeightStyle]).lineHeight
        = [(tsTokenName lineHeightStyle, lineHeightToken lineHeightStyle 24)]
    ∧ (lineHeightToken lineHeightStyle 24).value = some "1.50") :=
  c6_lineheight_ratio lineHeightStyle 24 16 rfl (by norm_num)

theorem cssShadowLayer_eq_spec (e : EffectLayer) : cssShadowLayer e = specShadowLayer e := by
  have hz : jsRound ((0 : ℚ) * 255) = 0 := by norm_num [jsRound]
  have hz0 : jsRound (0 : ℚ) = 0 := by norm_num [jsRound]
  rcases ho : e.offset with _ | o <;> rcases hc : e.color with _ | c <;>
    simp [cssShadowLayer, specShadowLayer, ho, hc, jsOrZero, jsAlphaOr1, hz, hz0,
      String.append_assoc]

theorem shadowFoldAux (l : List EffectLayer) : ∀ acc : List String,
    l.foldl (fun shadows e =>
      if isShadowLayer e then shadows ++ [cssShadowLayer e] else shadows) acc
      = acc ++ (l.filter isShadowLayer).map cssShadowLayer := by
  induction l with
  | nil => intro acc; simp
  | cons e rest ih =>
    intro acc
    by_cases he : isShadowLayer e = true <;>
      simp [List.foldl_cons, List.filter_cons, he, ih]

theorem jsRepr_zero : jsRepr (0 : ℚ) = "0" := by
  simp [jsRepr, abs_zero, Rat.den_zero]
  decide

theorem jsRepr_one : jsRepr (1 : ℚ) = "1" := by
  simp [jsRepr, abs_one, Rat.den_one]
  decide

/-- C7: `figmaEffectToCss` is total by construction, keeps exactly the
drop/inner shadow layers, and renders every kept layer as the spec's
template (`specShadowLayer`: `"<inset ><x>px <y>px <blur>px <spread>px
rgba(r,g,b,a)"` with inset only on inner shadows, missing offsets
defaulting to 0, a missing color defaulting to opaque black, channels
rounded through the [0,1]→255 scaling), joined with `", "`; a layer with
every optional field missing renders as
`"0px 0px 0px 0px rgba(0, 0, 0, 1)"`. -/
theorem c7_effect_css_spec :
    (∀ effects : List EffectLayer,
      figmaEffectToCss effects
        = String.intercalate ", " ((effects.filter isShadowLayer).map specShadowLayer))
    ∧ figmaEffectToCss [bareDropShadow] = "0px 0px 0px 0px rgba(0, 0, 0, 1)" := by
  constructor
  · intro effects
    rw [figmaEffectToCss, shadowFoldAux, List.nil_append]
    exact congrArg _ (List.map_congr_left (fun e _ => cssShadowLayer_eq_spec e))
  · have hz : jsRound ((0 : ℚ) * 255) = 0 := by norm_num [jsRound]
    have hz0 : jsRound (0 : ℚ) = 0 := by norm_num [jsRound]
    have hlayer : cssShadowLayer bareDropShadow = "0px 0px 0px 0px rgba(0, 0, 0, 1)" := by
      simp [cssShadowLayer, bareDropShadow, jsOrZero, jsAlphaOr1, hz, hz0, jsRepr_zero,
        jsRepr_one]
      decide
    show String.intercalate ", " [cssShadowLayer bareDropShadow] = _
    rw [hlayer]
    decide

/-- C9: the `value/reference` filter recognizes exactly the string values
that start with `{` and end with `}`; a recognized value is rewritten to
`var(--` + inner text with each `.` replaced by `-` + `)`; anything else
passes through unchanged; `"{colors.primary.500}"` becomes
`"var(--colors-primary-500)"`. -/
theorem c9_reference_transform :
    (∀ t : Token, referenceFilter t = true ↔
      ∃ s, t.value = JValue.str s
        ∧ strStartsWith s ("\x7b") = true ∧ strEndsWith s ("\x7d") = true)
    ∧ (∀ (t : Token) (s : String), t.value = JValue.str s → referenceFilter t = true →
        (applyReference t).value
          = JValue.str ("var(--"
              ++ ⟨((s.data.drop 1).dropLast).map (fun c => if c = '.' then '-' else c)⟩ ++ ")"))
    ∧ (∀ t : Token, referenceFilter t = false → applyReference t = t)
    ∧ (applyReference referenceToken).value = JValue.str "var(--colors-primary-500)" := by
  refine ⟨?_, ?_, ?_, by decide⟩
  · intro t
    constructor
    · intro hf
      rw [referenceFilter] at hf
      rcases hv : t.value with s | q | _ <;> rw [hv] at hf
      · rcases Bool.and_eq_true _ _ |>.mp hf with ⟨hs, he⟩
        exact ⟨s, rfl, hs, he⟩
      · exact absurd hf (by simp)
      · exact absurd hf (by simp)
    · rintro ⟨s, hv, hs, he⟩
      rw [referenceFilter, hv]
      show (strStartsWith s ("\x7b") && strEndsWith s ("\x7d")) = true
      rw [hs, he]
      rfl
  · intro t s hv hf
    rw [applyReference, if_pos hf, hv]
    rfl
  · intro t hf
    rw [applyReference, if_neg (by simp [hf])]

/-- C10: `normalizeTokens` is total (a total Lean function by
construction) and, for every payload in which a style collection is
missing (`styles` absent or the collection absent), leaves the
corresponding normalized section present but empty — colors `{}`,
typography with its four empty sub-maps, effects `{}` — while always
producing the metadata block with source `"figma"`, the run timestamp and
the payload's name/version. -/
theorem c10_normalize_missing_sections (fd : FigmaData) (ts : String) :
    (fd.styles.bind FigmaStyles.colors = none → (normalizeTokens fd ts).colors = [])
    ∧ (fd.styles.bind FigmaStyles.text = none →
        (normalizeTokens fd ts).typography = ({} : Typography))
    ∧ (fd.styles.bind FigmaStyles.effects = none → (normalizeTokens fd ts).effects = [])
    ∧ (normalizeTokens fd ts).metadata
        = { source := "figma", extractedAt := ts, fileName := fd.name,
            version := fd.version } := by
  refine ⟨?_, ?_, ?_, rfl⟩
  · intro h
    simp [normalizeTokens, h]
  · intro h
    simp [normalizeTokens, h]
  · intro h
    simp [normalizeTokens, h]

set_option maxRecDepth 16000 in
/-- C8: evaluation at the failing input.  The rendered documentation body
for a color token whose value is `"><script>alert(1)</script>` contains the
raw, unescaped `<script>` text: `generatePreview` interpolates
`token.value` into the swatch's style attribute without `escapeHtml`, so
not every occurrence of the value is escaped (the escaped form, as the
token-value cell shows, would contain no `<script>` substring). -/
theorem c8_html_unescaped_value :
    strIncludes (htmlCategorySections [injectionToken]) "<script>" = true
    ∧ strIncludes (escapeHtml "\"><script>alert(1)</script>") "<script>" = false
    ∧ escapeHtml "\"><script>alert(1)</script>"
        = "&quot;&gt;&lt;script&gt;alert(1)&lt;/script&gt;" := by decide
